import Mathlib

/-!
# Verification of the gcpx context store and switching state machine

Shallow embedding of the core of `gcpx` (a CLI managing named bundles of
gcloud credentials) and proofs about its context store operations.

The embedding follows the Rust sources:
  * `src/config.rs` — name validation, path resolution, metadata store,
    active-context tracker, external tool adapters;
  * `src/commands/save.rs`, `switch.rs`, `delete.rs` — the operations.

The filesystem is modelled explicitly as a `FsState`; external tool
invocations are modelled by an environment `GcloudEnv` holding the outcome
each invocation would produce, plus a trace (`ExtCall`) of which external
commands an operation actually issued.
-/

namespace Gcpx

/-- Error kinds surfaced by the tool (Rust uses `anyhow` string errors; we
tag each `bail!` site with its kind and message). -/
inductive GcpxError where
  | invalidName (msg : String)
  | noCredentials
  | contextNotFound (name : String)
  | corruptMetadata (name : String)
  | externalToolError (msg : String)
  | ioError (msg : String)
deriving Repr, DecidableEq

/-- Rust `char::is_ascii_control`: true for U+0000..U+001F and U+007F. -/
def isAsciiControl (c : Char) : Bool :=
  c.toNat < 32 || c.toNat == 127

/-- Rust `str::starts_with('.')` on the first character. -/
def startsWithDot (s : String) : Bool :=
  match s.data with
  | [] => false
  | c :: _ => c == '.'

/-- Rust `str::contains(c)` for a single character. -/
def containsChar (s : String) (c : Char) : Bool :=
  s.data.any (fun d => d == c)

/-- Rust `str::chars().any(|c| c.is_ascii_control())`. -/
def containsControl (s : String) : Bool :=
  s.data.any isAsciiControl

/-- `validate_context_name` from `src/config.rs`: rejects empty names,
`"."`/`".."`, names starting with a dot, names containing path separators,
and names containing ASCII control characters. -/
def validate_context_name (name : String) : Except GcpxError Unit :=
  if name = "" then
    .error (.invalidName "Context name cannot be empty.")
  else if name = "." || name = ".." then
    .error (.invalidName "Context name cannot be dot or dotdot.")
  else if startsWithDot name then
    .error (.invalidName "Context name cannot start with a dot.")
  else if containsChar name '/' || containsChar name '\\' then
    .error (.invalidName "Context name cannot contain path separators.")
  else if containsControl name then
    .error (.invalidName "Context name cannot contain control characters.")
  else
    .ok ()

/-!  ## Path model

Paths are modelled as lists of segments.  `Path::join` on Unix appends the
components of the joined string, unless that string is absolute, in which
case it replaces the path.  Components are the non-empty fragments between
`/` separators. -/

/-- Split a character list at `/` separators. -/
def splitOnSlash : List Char → List (List Char)
  | [] => [[]]
  | c :: rest =>
    let r := splitOnSlash rest
    if c = '/' then [] :: r
    else
      match r with
      | [] => [[c]]
      | seg :: segs => (c :: seg) :: segs

/-- Path components of a string: non-empty fragments between separators. -/
def pathSegsOfName (name : String) : List String :=
  ((splitOnSlash name.data).filter (fun l => l ≠ [])).map (fun l => ⟨l⟩)

/-- Whether a string denotes an absolute path (Unix). -/
def isAbsolutePathStr (s : String) : Bool :=
  match s.data with
  | '/' :: _ => true
  | _ => false

/-- Model of `PathBuf::join(base, s)` over segment lists (Unix semantics). -/
def pathJoin (base : List String) (s : String) : List String :=
  if isAbsolutePathStr s then pathSegsOfName s
  else base ++ pathSegsOfName s

/-- `get_context_dir` from `src/config.rs`: the store root joined with the
context name. -/
def get_context_dir (storeRoot : List String) (name : String) : List String :=
  pathJoin storeRoot name

/-- The reserved active-marker filename used by `set_current_tracking`. -/
def currentMarkerName : String := ".current"

/-! ## Data model: metadata, filesystem state, external environment -/

/-- `ContextMetadata` from `src/config.rs`: the per-context record stored in
`metadata.json`. -/
structure ContextMetadata where
  gcloud_config : String
  account : Option String
  project : Option String
  kubectl_context : Option String
deriving Repr, DecidableEq

/-- Contents of a context metadata file, abstracting JSON (de)serialisation:
either it parses to a record or it is corrupt. -/
inductive MetaFile where
  | valid (m : ContextMetadata)
  | corrupt
deriving Repr, DecidableEq

/-- One per-context directory under the store root: the optional credential
blob `adc.json` (bytes) and the optional `metadata.json`. -/
structure ContextDir where
  adc : Option (List Nat)
  meta : Option MetaFile
deriving Repr, DecidableEq

/-- The persisted world the tool reads and writes: whether the store root is
accessible (`get_store_dir` succeeds), the per-context directories keyed by
name, the `.current` marker file contents, and the provider live ADC file
`~/.config/gcloud/application_default_credentials.json`. -/
structure FsState where
  storeOk : Bool
  storeEntries : List (String × ContextDir)
  currentFile : Option String
  liveAdc : Option (List Nat)
deriving Repr, DecidableEq

/-- Assoc-list lookup of a context directory by name. -/
def lookupCtx : List (String × ContextDir) → String → Option ContextDir
  | [], _ => none
  | (n, d) :: rest, name => if n = name then some d else lookupCtx rest name

/-- Replace (or append) the directory stored under a name. -/
def setCtxEntries : List (String × ContextDir) → String → ContextDir →
    List (String × ContextDir)
  | [], name, d => [(name, d)]
  | (n, e) :: rest, name, d =>
    if n = name then (n, d) :: rest else (n, e) :: setCtxEntries rest name d

/-- Remove the directory stored under a name (`fs::remove_dir_all`). -/
def removeCtxEntries : List (String × ContextDir) → String →
    List (String × ContextDir)
  | [], _ => []
  | (n, e) :: rest, name =>
    if n = name then rest else (n, e) :: removeCtxEntries rest name

def FsState.getCtx (fs : FsState) (name : String) : Option ContextDir :=
  lookupCtx fs.storeEntries name

/-- Contents of the stored `adc.json` of a context, when present. -/
def storedAdc (fs : FsState) (name : String) : Option (List Nat) :=
  match fs.getCtx name with
  | none => none
  | some d => d.adc

/-- Captured outcome of one external process invocation: exit status and the
text on stdout / stderr. -/
structure ProcOutput where
  exitOk : Bool
  stdout : String
  stderr : String
deriving Repr, DecidableEq

/-- Outcomes the external tools would produce if invoked during one
operation.  `none` models a spawn failure (binary missing / not runnable);
`some o` models a completed process with output `o`. -/
structure GcloudEnv where
  configList : Option ProcOutput
  accountGet : Option ProcOutput
  projectGet : Option ProcOutput
  kubectlCurrent : Option ProcOutput
  activate : Option ProcOutput
  kubectlUse : Option ProcOutput
  deleteCfg : Option ProcOutput
deriving Repr, DecidableEq

/-- Trace entry: one external command issued by an operation. -/
inductive ExtCall where
  | queryGcloudConfig
  | queryGcloudAccount
  | queryGcloudProject
  | queryKubectlContext
  | activateGcloudConfig (config : String)
  | useKubectlContext (ctx : String)
  | deleteGcloudConfig (config : String)
deriving Repr, DecidableEq

instance {ε α : Type} [DecidableEq ε] [DecidableEq α] :
    DecidableEq (Except ε α) := fun a b =>
  match a, b with
  | .ok x, .ok y =>
    if h : x = y then isTrue (by rw [h])
    else isFalse (fun hh => h (by cases hh; rfl))
  | .ok _, .error _ => isFalse (fun h => Except.noConfusion h)
  | .error _, .ok _ => isFalse (fun h => Except.noConfusion h)
  | .error e, .error f =>
    if h : e = f then isTrue (by rw [h])
    else isFalse (fun hh => h (by cases hh; rfl))

/-- Result of running one operation: the `Result` value, the filesystem
afterwards, the external commands issued, and the lines printed. -/
structure OpResult where
  result : Except GcpxError Unit
  fs : FsState
  calls : List ExtCall
  output : List String
deriving Repr, DecidableEq

/-- Rust `str::trim` (drop whitespace from both ends). -/
def trimStr (s : String) : String :=
  ⟨((s.data.dropWhile Char.isWhitespace).reverse.dropWhile
      Char.isWhitespace).reverse⟩

/-! ## External tool adapters (`src/config.rs`) -/

/-- `get_current_gcloud_config`: trims stdout of the configurations-list
query; empty output defaults to `"default"`; only a spawn failure errors
(the exit status is not inspected). -/
def get_current_gcloud_config (env : GcloudEnv) : Except GcpxError String :=
  match env.configList with
  | none => .error (.externalToolError "Failed to get current gcloud config")
  | some out =>
    .ok (if trimStr out.stdout = "" then "default" else trimStr out.stdout)

/-- `get_current_gcloud_account`: empty or `"(unset)"` output means absent;
only a spawn failure errors. -/
def get_current_gcloud_account (env : GcloudEnv) :
    Except GcpxError (Option String) :=
  match env.accountGet with
  | none => .error (.externalToolError "Failed to get current gcloud account")
  | some out =>
    .ok (if trimStr out.stdout = "" || trimStr out.stdout = "(unset)"
         then none else some (trimStr out.stdout))

/-- `get_current_gcloud_project`: same contract as the account query. -/
def get_current_gcloud_project (env : GcloudEnv) :
    Except GcpxError (Option String) :=
  match env.projectGet with
  | none => .error (.externalToolError "Failed to get current gcloud project")
  | some out =>
    .ok (if trimStr out.stdout = "" || trimStr out.stdout = "(unset)"
         then none else some (trimStr out.stdout))

/-- `get_current_kubectl_context`: every failure (spawn, non-zero exit,
empty output) degrades to `none`. -/
def get_current_kubectl_context (env : GcloudEnv) : Option String :=
  match env.kubectlCurrent with
  | none => none
  | some out =>
    if out.exitOk = false then none
    else if trimStr out.stdout = "" then none
    else some (trimStr out.stdout)

/-- `switch_kubectl_context`: returns whether the switch happened plus any
warning lines; it never fails (spawn failure means kubectl not installed). -/
def switch_kubectl_context (env : GcloudEnv) : Bool × List String :=
  match env.kubectlUse with
  | none => (false, [])
  | some out =>
    if out.exitOk then (true, [])
    else if trimStr out.stderr = "" then (false, [])
    else (false, ["kubectl warning: " ++ trimStr out.stderr])

/-! ## Metadata store and active-context tracker (`src/config.rs`) -/

/-- `load_context_metadata`: absent file is `Ok(None)`; a file that fails to
parse is an error. -/
def load_context_metadata (fs : FsState) (name : String) :
    Except GcpxError (Option ContextMetadata) :=
  if fs.storeOk = false then .error (.ioError "store dir unavailable")
  else
    match fs.getCtx name with
    | none => .ok none
    | some d =>
      match d.meta with
      | none => .ok none
      | some (.valid m) => .ok (some m)
      | some .corrupt => .error (.corruptMetadata name)

/-- `get_current_tracking`: contents of the `.current` marker when readable,
otherwise the sentinel `"none"`; this function is total and never fails. -/
def get_current_tracking (fs : FsState) : String :=
  if fs.storeOk = false then "none"
  else
    match fs.currentFile with
    | none => "none"
    | some s => s

/-- `list_contexts`: names of the store-root subdirectories that do not
start with a dot, sorted (Rust `Vec::sort` on strings). -/
def list_contexts (fs : FsState) : Except GcpxError (List String) :=
  if fs.storeOk = false then .error (.ioError "store dir unavailable")
  else
    .ok (List.insertionSort (fun a b => a ≤ b)
      ((fs.storeEntries.map Prod.fst).filter (fun n => !startsWithDot n)))

/-- `context_exists`: whether the stored `adc.json` of the name exists. -/
def context_exists (fs : FsState) (name : String) :
    Except GcpxError Bool :=
  if fs.storeOk = false then .error (.ioError "store dir unavailable")
  else .ok (storedAdc fs name).isSome

/-- Whether the first list occurs at the head of the second. -/
def leadMatch : List Char → List Char → Bool
  | [], _ => true
  | _ :: _, [] => false
  | p :: ps, c :: cs => p == c && leadMatch ps cs

/-- Rust `str::contains(pat)`: whether `pat` occurs as a substring. -/
def substrIn (pat : List Char) : List Char → Bool
  | [] => leadMatch pat []
  | c :: cs => leadMatch pat (c :: cs) || substrIn pat cs

/-! ## Operations (`src/commands/save.rs`, `switch.rs`, `delete.rs`) -/

/-- Detail lines printed by Save when not quiet. -/
def saveDetailLines (cfg : String) (account project kctx : Option String) :
    List String :=
  ["  gcloud config: " ++ cfg]
    ++ (match account with | some a => ["  account: " ++ a] | none => [])
    ++ (match project with | some p => ["  project: " ++ p] | none => [])
    ++ (match kctx with | some k => ["  kubectl: " ++ k] | none => [])

/-- Detail lines printed by Switch (account / project / kubectl only). -/
def metaDetailLines (m : ContextMetadata) : List String :=
  (match m.account with | some a => ["  account: " ++ a] | none => [])
    ++ (match m.project with | some p => ["  project: " ++ p] | none => [])
    ++ (match m.kubectl_context with
        | some k => ["  kubectl: " ++ k] | none => [])

/-- `save_context` from `src/commands/save.rs`.

Validates the name; fails if the provider live ADC file is absent; queries
the active gcloud configuration, account and project (each `?`-propagated)
and the kubectl context (best effort); creates the context directory,
copies the blob, writes the metadata record; prints a summary (details only
when not quiet); finally marks this context active. -/
def save_context (name : String) (quiet : Bool) (env : GcloudEnv)
    (fs : FsState) : OpResult :=
  match validate_context_name name with
  | .error e => ⟨.error e, fs, [], []⟩
  | .ok () =>
    match fs.liveAdc with
    | none => ⟨.error .noCredentials, fs, [], []⟩
    | some adcContent =>
      match get_current_gcloud_config env with
      | .error e => ⟨.error e, fs, [.queryGcloudConfig], []⟩
      | .ok gcloud_config =>
        match get_current_gcloud_account env with
        | .error e => ⟨.error e, fs, [.queryGcloudConfig, .queryGcloudAccount], []⟩
        | .ok account =>
          match get_current_gcloud_project env with
          | .error e =>
            ⟨.error e, fs,
              [.queryGcloudConfig, .queryGcloudAccount, .queryGcloudProject], []⟩
          | .ok project =>
            let kubectl_context := get_current_kubectl_context env
            let calls : List ExtCall :=
              [.queryGcloudConfig, .queryGcloudAccount, .queryGcloudProject,
                .queryKubectlContext]
            if fs.storeOk = false then
              ⟨.error (.ioError "store dir unavailable"), fs, calls, []⟩
            else
              let metadata : ContextMetadata :=
                ⟨gcloud_config, account, project, kubectl_context⟩
              let fs1 : FsState :=
                { fs with
                  storeEntries :=
                    setCtxEntries fs.storeEntries name
                      ⟨some adcContent, some (.valid metadata)⟩ }
              let out :=
                ["Context " ++ name ++ " saved."]
                  ++ (if quiet then []
                      else saveDetailLines gcloud_config account project
                        kubectl_context)
              let fs2 : FsState := { fs1 with currentFile := some name }
              ⟨.ok (), fs2, calls, out⟩

/-- `switch_context` from `src/commands/switch.rs`.

Validates the name; fails with context-not-found if the stored blob is
absent; short-circuits when the tracker already names this context;
otherwise loads the metadata (falling back to the context name as the
gcloud configuration), activates the configuration (failure is fatal),
copies the stored blob over the live ADC path, best-effort switches the
kubectl context, and finally updates the marker. -/
def switch_context (name : String) (quiet : Bool) (env : GcloudEnv)
    (fs : FsState) : OpResult :=
  match validate_context_name name with
  | .error e => ⟨.error e, fs, [], []⟩
  | .ok () =>
    if fs.storeOk = false then
      ⟨.error (.ioError "store dir unavailable"), fs, [], []⟩
    else
      match storedAdc fs name with
      | none => ⟨.error (.contextNotFound name), fs, [], []⟩
      | some storedContent =>
        if get_current_tracking fs = name then
          let out :=
            ["Already on context " ++ name ++ "."]
              ++ (if quiet then []
                  else
                    match load_context_metadata fs name with
                    | .ok (some m) => metaDetailLines m
                    | _ => [])
          ⟨.ok (), fs, [], out⟩
        else
          match load_context_metadata fs name with
          | .error e => ⟨.error e, fs, [], []⟩
          | .ok metadata =>
            let gcloud_config :=
              match metadata with
              | some m => m.gcloud_config
              | none => name
            let out0 := ["Switching to context " ++ name ++ "..."]
            match env.activate with
            | none =>
              ⟨.error (.externalToolError "Failed to execute gcloud command"),
                fs, [.activateGcloudConfig gcloud_config], out0⟩
            | some actOut =>
              if actOut.exitOk = false then
                ⟨.error (.externalToolError
                    ("gcloud error: " ++ trimStr actOut.stderr)),
                  fs, [.activateGcloudConfig gcloud_config], out0⟩
              else
                let fs1 : FsState := { fs with liveAdc := some storedContent }
                let kstep : List ExtCall × List String :=
                  match metadata with
                  | some m =>
                    match m.kubectl_context with
                    | some kctx =>
                      ([.useKubectlContext kctx],
                        (switch_kubectl_context env).2)
                    | none => ([], [])
                  | none => ([], [])
                let fs2 : FsState := { fs1 with currentFile := some name }
                let outEnd :=
                  ["Switched to " ++ name ++ " successfully!"]
                    ++ (if quiet then []
                        else
                          match metadata with
                          | some m => metaDetailLines m
                          | none => [])
                ⟨.ok (), fs2,
                  [.activateGcloudConfig gcloud_config] ++ kstep.1,
                  out0 ++ kstep.2 ++ outEnd⟩

/-- `delete_context` from `src/commands/delete.rs`.

Validates the name; fails with context-not-found when `context_exists` is
false; warns (without aborting) when deleting the active context, leaving
the marker untouched; removes the context directory; when requested,
deletes the gcloud configuration named by the CONTEXT NAME, treating a
"does not exist" stderr as success. -/
def delete_context (name : String) (delete_gcloud_config : Bool)
    (env : GcloudEnv) (fs : FsState) : OpResult :=
  match validate_context_name name with
  | .error e => ⟨.error e, fs, [], []⟩
  | .ok () =>
    match context_exists fs name with
    | .error e => ⟨.error e, fs, [], []⟩
    | .ok false => ⟨.error (.contextNotFound name), fs, [], []⟩
    | .ok true =>
      let warnOut :=
        if get_current_tracking fs = name then
          ["Warning: " ++ name ++ " is the currently active context."]
        else []
      let fs1 : FsState :=
        { fs with storeEntries := removeCtxEntries fs.storeEntries name }
      let out1 := warnOut ++ ["Deleted context " ++ name ++ "."]
      if delete_gcloud_config = false then ⟨.ok (), fs1, [], out1⟩
      else
        let out2 := out1 ++ ["Deleting gcloud configuration " ++ name ++ "..."]
        match env.deleteCfg with
        | none =>
          ⟨.error (.externalToolError "Failed to execute gcloud command"),
            fs1, [.deleteGcloudConfig name], out2⟩
        | some dOut =>
          if dOut.exitOk then
            ⟨.ok (), fs1, [.deleteGcloudConfig name],
              out2 ++ ["Deleted gcloud configuration " ++ name ++ "."]⟩
          else if substrIn "does not exist".data dOut.stderr.data then
            ⟨.ok (), fs1, [.deleteGcloudConfig name], out2⟩
          else
            ⟨.error (.externalToolError
                ("gcloud error: " ++ dOut.stderr)),
              fs1, [.deleteGcloudConfig name], out2⟩

/-- Every gcloud query command of the environment can at least be
spawned (no binary-missing failures). -/
def envSpawnOk (env : GcloudEnv) : Prop :=
  env.configList ≠ none ∧ env.accountGet ≠ none ∧ env.projectGet ≠ none

instance (env : GcloudEnv) : Decidable (envSpawnOk env) := by
  unfold envSpawnOk
  infer_instance

/-- Run Save (non-quiet) once for each name in order, threading the
filesystem. -/
def saveAll (names : List String) (env : GcloudEnv) (fs : FsState) :
    FsState :=
  match names with
  | [] => fs
  | n :: rest => saveAll rest env (save_context n false env fs).fs

/-! ### Facts about the validator -/

theorem splitOnSlash_no_slash (cs : List Char) (h : ∀ c ∈ cs, c ≠ '/') :
    splitOnSlash cs = [cs] := by
  induction cs with
  | nil => rfl
  | cons c rest ih =>
    have hc : c ≠ '/' := h c (List.mem_cons_self c rest)
    have hr : splitOnSlash rest = [rest] :=
      ih (fun d hd => h d (List.mem_cons_of_mem c hd))
    simp [splitOnSlash, hc, hr]

theorem string_eq_empty_iff (s : String) : s = "" ↔ s.data = [] := by
  constructor
  · intro h; rw [h]
  · intro h
    cases s with
    | mk d =>
      cases h
      rfl

theorem startsWithDot_iff (s : String) :
    startsWithDot s = true ↔ s.data.head? = some '.' := by
  cases s with
  | mk d =>
    cases d with
    | nil => simp [startsWithDot]
    | cons c rest => simp [startsWithDot]

theorem containsChar_iff (s : String) (c : Char) :
    containsChar s c = true ↔ c ∈ s.data := by
  unfold containsChar
  rw [List.any_eq_true]
  constructor
  · rintro ⟨d, hd, he⟩
    rw [beq_iff_eq] at he
    exact he ▸ hd
  · intro h
    exact ⟨c, h, by simp⟩

theorem containsControl_iff (s : String) :
    containsControl s = true ↔
      ∃ c ∈ s.data, c.toNat < 32 ∨ c.toNat = 127 := by
  unfold containsControl
  rw [List.any_eq_true]
  apply exists_congr
  intro c
  apply and_congr Iff.rfl
  unfold isAsciiControl
  simp [Bool.or_eq_true]

/-- Characterisation of the validator: it succeeds exactly on nonempty
strings, distinct from `"."` and `".."`, not starting with a dot, without
separators, and whose characters are all outside the ASCII control set
(code points below 32 together with 127). -/
theorem validate_ok_iff (name : String) :
    validate_context_name name = .ok () ↔
      (name.data ≠ [] ∧ name ≠ "." ∧ name ≠ ".." ∧
        name.data.head? ≠ some '.' ∧
        '/' ∉ name.data ∧ '\\' ∉ name.data ∧
        ∀ c ∈ name.data, ¬(c.toNat < 32 ∨ c.toNat = 127)) := by
  unfold validate_context_name
  by_cases h0 : name = ""
  · rw [if_pos h0]
    constructor
    · intro h
      exact absurd h (by simp)
    · rintro ⟨ha, -⟩
      exact absurd ((string_eq_empty_iff name).mp h0) ha
  rw [if_neg h0]
  by_cases h1 : name = "."
  · rw [if_pos (by simp [h1])]
    constructor
    · intro h
      exact absurd h (by simp)
    · rintro ⟨-, hb, -⟩
      exact absurd h1 hb
  by_cases h2 : name = ".."
  · rw [if_pos (by simp [h2])]
    constructor
    · intro h
      exact absurd h (by simp)
    · rintro ⟨-, -, hb, -⟩
      exact absurd h2 hb
  rw [if_neg (by simp [h1, h2])]
  by_cases h3 : startsWithDot name = true
  · rw [if_pos h3]
    constructor
    · intro h
      exact absurd h (by simp)
    · rintro ⟨-, -, -, hd, -⟩
      exact (hd ((startsWithDot_iff name).mp h3)).elim
  rw [if_neg h3]
  by_cases h4 : containsChar name '/' = true
  · rw [if_pos (by simp [h4])]
    constructor
    · intro h
      exact absurd h (by simp)
    · rintro ⟨-, -, -, -, hm, -⟩
      exact (hm ((containsChar_iff name _).mp h4)).elim
  by_cases h5 : containsChar name '\\' = true
  · rw [if_pos (by simp [h5])]
    constructor
    · intro h
      exact absurd h (by simp)
    · rintro ⟨-, -, -, -, -, hm, -⟩
      exact (hm ((containsChar_iff name _).mp h5)).elim
  rw [if_neg (by simp [h4, h5])]
  by_cases h6 : containsControl name = true
  · rw [if_pos h6]
    constructor
    · intro h
      exact absurd h (by simp)
    · rintro ⟨-, -, -, -, -, -, hall⟩
      obtain ⟨c, hc, hbad⟩ := (containsControl_iff name).mp h6
      exact (hall c hc hbad).elim
  rw [if_neg h6]
  constructor
  swap
  · intro h
    rfl
  intro h
  refine ⟨?_, h1, h2, ?_, ?_, ?_, ?_⟩
  · intro hd
    exact h0 ((string_eq_empty_iff name).mpr hd)
  · intro hd
    exact h3 ((startsWithDot_iff name).mpr hd)
  · intro hm
    exact h4 ((containsChar_iff name _).mpr hm)
  · intro hm
    exact h5 ((containsChar_iff name _).mpr hm)
  · intro c hc hbad
    exact h6 ((containsControl_iff name).mpr ⟨c, hc, hbad⟩)

theorem pathSegsOfName_no_slash (name : String)
    (hne : name.data ≠ []) (hnosl : '/' ∉ name.data) :
    pathSegsOfName name = [name] := by
  unfold pathSegsOfName
  have hsplit : splitOnSlash name.data = [name.data] :=
    splitOnSlash_no_slash name.data (fun c hc he => hnosl (he ▸ hc))
  rw [hsplit]
  simp only [List.filter, hne, decide_not]
  cases name with
  | mk d =>
    simp only [] at hne
    simp [List.filter, hne]

theorem isAbsolutePathStr_eq_false (name : String) (h : '/' ∉ name.data) :
    isAbsolutePathStr name = false := by
  unfold isAbsolutePathStr
  cases hd : name.data with
  | nil => rfl
  | cons c rest =>
    have : c ≠ '/' := by
      intro he
      apply h
      rw [hd, he]
      exact List.mem_cons_self _ _
    simp [this]

theorem lookupCtx_setCtxEntries (es : List (String × ContextDir))
    (name : String) (d : ContextDir) :
    lookupCtx (setCtxEntries es name d) name = some d := by
  induction es with
  | nil => simp [setCtxEntries, lookupCtx]
  | cons e rest ih =>
    obtain ⟨n, dir⟩ := e
    by_cases h : n = name
    · simp [setCtxEntries, lookupCtx, h]
    · simp [setCtxEntries, lookupCtx, h, ih]

theorem lookupCtx_eq_none_of_not_mem (es : List (String × ContextDir))
    (name : String) (h : name ∉ es.map Prod.fst) :
    lookupCtx es name = none := by
  induction es with
  | nil => rfl
  | cons e rest ih =>
    obtain ⟨n, d⟩ := e
    simp only [List.map_cons, List.mem_cons] at h
    push_neg at h
    simp only [lookupCtx]
    rw [if_neg (fun (he : n = name) => h.1 he.symm)]
    exact ih h.2

theorem not_mem_map_fst_removeCtxEntries (es : List (String × ContextDir))
    (name : String) (hnd : (es.map Prod.fst).Nodup) :
    name ∉ (removeCtxEntries es name).map Prod.fst := by
  induction es with
  | nil => simp [removeCtxEntries]
  | cons e rest ih =>
    obtain ⟨n, d⟩ := e
    simp only [List.map_cons, List.nodup_cons] at hnd
    obtain ⟨hn, hrest⟩ := hnd
    by_cases h : n = name
    · subst h
      simp only [removeCtxEntries, if_pos rfl]
      exact hn
    · simp only [removeCtxEntries, if_neg h, List.map_cons, List.mem_cons]
      push_neg
      exact ⟨fun he => h he.symm, ih hrest⟩

theorem lookupCtx_removeCtxEntries (es : List (String × ContextDir))
    (name : String) (hnd : (es.map Prod.fst).Nodup) :
    lookupCtx (removeCtxEntries es name) name = none :=
  lookupCtx_eq_none_of_not_mem _ _
    (not_mem_map_fst_removeCtxEntries es name hnd)

theorem setCtxEntries_fresh (es : List (String × ContextDir))
    (name : String) (d : ContextDir) (h : name ∉ es.map Prod.fst) :
    setCtxEntries es name d = es ++ [(name, d)] := by
  induction es with
  | nil => rfl
  | cons e rest ih =>
    obtain ⟨n, dn⟩ := e
    simp only [List.map_cons, List.mem_cons] at h
    push_neg at h
    simp only [setCtxEntries]
    rw [if_neg (fun (he : n = name) => h.1 he.symm), ih h.2]
    rfl

theorem save_success_shape (name : String) (env : GcloudEnv) (fs : FsState)
    (blob : List Nat)
    (hv : validate_context_name name = .ok ())
    (hadc : fs.liveAdc = some blob)
    (hs : fs.storeOk = true)
    (henv : envSpawnOk env) :
    ∃ d : ContextDir,
      (save_context name false env fs).fs =
        { fs with
          storeEntries := setCtxEntries fs.storeEntries name d,
          currentFile := some name } ∧
      (save_context name false env fs).result = .ok () := by
  obtain ⟨h1n, h2n, h3n⟩ := henv
  cases ho1 : env.configList with
  | none => exact absurd ho1 h1n
  | some o1 =>
  cases ho2 : env.accountGet with
  | none => exact absurd ho2 h2n
  | some o2 =>
  cases ho3 : env.projectGet with
  | none => exact absurd ho3 h3n
  | some o3 =>
  obtain ⟨cfg, hcfg⟩ : ∃ cfg, get_current_gcloud_config env = .ok cfg :=
    ⟨if trimStr o1.stdout = "" then "default" else trimStr o1.stdout,
      by simp [get_current_gcloud_config, ho1]⟩
  obtain ⟨acct, ha⟩ : ∃ a, get_current_gcloud_account env = .ok a :=
    ⟨if trimStr o2.stdout = "" || trimStr o2.stdout = "(unset)"
        then none else some (trimStr o2.stdout),
      by simp [get_current_gcloud_account, ho2]⟩
  obtain ⟨proj, hp⟩ : ∃ p, get_current_gcloud_project env = .ok p :=
    ⟨if trimStr o3.stdout = "" || trimStr o3.stdout = "(unset)"
        then none else some (trimStr o3.stdout),
      by simp [get_current_gcloud_project, ho3]⟩
  refine ⟨⟨some blob, some (.valid ⟨cfg, acct, proj,
      get_current_kubectl_context env⟩)⟩, ?_, ?_⟩
  · simp [save_context, hv, hadc, hcfg, ha, hp, hs]
  · simp [save_context, hv, hadc, hcfg, ha, hp, hs]

theorem saveAll_shape (env : GcloudEnv) (blob : List Nat)
    (henv : envSpawnOk env) :
    ∀ (names : List String) (fs : FsState),
      fs.storeOk = true → fs.liveAdc = some blob →
      (∀ n ∈ names, validate_context_name n = .ok ()) →
      names.Nodup →
      (∀ n ∈ names, n ∉ fs.storeEntries.map Prod.fst) →
      (saveAll names env fs).storeOk = true ∧
      (saveAll names env fs).storeEntries.map Prod.fst
        = fs.storeEntries.map Prod.fst ++ names ∧
      (saveAll names env fs).currentFile
        = (match names.getLast? with
           | none => fs.currentFile
           | some n => some n) := by
  intro names
  induction names with
  | nil =>
    intro fs h1 _ _ _ _
    exact ⟨h1, by simp [saveAll], by simp [saveAll]⟩
  | cons n rest ih =>
    intro fs hok hadc hvalid hnd hfresh
    obtain ⟨d, hfs, -⟩ :=
      save_success_shape n env fs blob (hvalid n (by simp)) hadc hok henv
    have hstep : saveAll (n :: rest) env fs
        = saveAll rest env (save_context n false env fs).fs := rfl
    have keys1 : (save_context n false env fs).fs.storeEntries.map Prod.fst
        = fs.storeEntries.map Prod.fst ++ [n] := by
      rw [hfs]
      simp [setCtxEntries_fresh fs.storeEntries n d (hfresh n (by simp))]
    have h1ok : (save_context n false env fs).fs.storeOk = true := by
      rw [hfs]
      exact hok
    have h1adc : (save_context n false env fs).fs.liveAdc = some blob := by
      rw [hfs]
      exact hadc
    have h1cur : (save_context n false env fs).fs.currentFile = some n := by
      rw [hfs]
    simp only [List.nodup_cons] at hnd
    obtain ⟨hnr, hndr⟩ := hnd
    have hvalid2 : ∀ m ∈ rest, validate_context_name m = .ok () :=
      fun m hm => hvalid m (List.mem_cons_of_mem n hm)
    have hfresh2 : ∀ m ∈ rest,
        m ∉ (save_context n false env fs).fs.storeEntries.map Prod.fst := by
      intro m hm
      rw [keys1]
      simp only [List.mem_append, List.mem_singleton]
      push_neg
      refine ⟨hfresh m (List.mem_cons_of_mem n hm), ?_⟩
      intro he
      exact hnr (he ▸ hm)
    obtain ⟨sOk, sKeys, sCur⟩ :=
      ih (save_context n false env fs).fs h1ok h1adc hvalid2 hndr hfresh2
    refine ⟨by rw [hstep]; exact sOk, ?_, ?_⟩
    · rw [hstep, sKeys, keys1]
      simp
    · rw [hstep, sCur, h1cur]
      cases hrl : rest.getLast? with
      | none =>
        have : rest = [] := List.getLast?_eq_none_iff.mp hrl
        subst this
        rfl
      | some m =>
        cases rest with
        | nil => simp at hrl
        | cons r rs =>
          rw [List.getLast?_cons_cons]
          rw [hrl]

theorem save_success_metadata (name : String) (env : GcloudEnv)
    (fs : FsState) (blob : List Nat) (cfg : String)
    (acct proj : Option String)
    (hv : validate_context_name name = .ok ())
    (hadc : fs.liveAdc = some blob)
    (hs : fs.storeOk = true)
    (hcfg : get_current_gcloud_config env = .ok cfg)
    (ha : get_current_gcloud_account env = .ok acct)
    (hp : get_current_gcloud_project env = .ok proj) :
    (save_context name false env fs).result = .ok () ∧
      load_context_metadata (save_context name false env fs).fs name
        = .ok (some ⟨cfg, acct, proj, get_current_kubectl_context env⟩) := by
  have hset := lookupCtx_setCtxEntries fs.storeEntries name
    ⟨some blob, some (.valid ⟨cfg, acct, proj,
      get_current_kubectl_context env⟩)⟩
  constructor
  · simp [save_context, hv, hadc, hcfg, ha, hp, hs]
  · simp [save_context, hv, hadc, hcfg, ha, hp, hs,
      load_context_metadata, FsState.getCtx, hset]

/-! ## Claim theorems -/

/-- C1 counterexample: the string `"a\x7F"` (letter `a` followed by ASCII
DEL, code point 127) is nonempty, is not `"."` or `".."`, does not start
with a dot, contains no separator and no character with code point below
32 — so by the claim the Name Validator should accept it — yet
`validate_context_name` rejects it, because Rust `is_ascii_control` also
covers 127. -/
theorem validate_del_counterexample :
    validate_context_name "a\x7F" ≠ .ok () ∧
      "a\x7F" ≠ "" ∧ "a\x7F" ≠ "." ∧ "a\x7F" ≠ ".." ∧
      ("a\x7F" : String).data.head? ≠ some '.' ∧
      '/' ∉ ("a\x7F" : String).data ∧ '\\' ∉ ("a\x7F" : String).data ∧
      (∀ c ∈ ("a\x7F" : String).data, ¬ c.toNat < 32) := by
  decide

/-- C1 (amended): the Name Validator succeeds exactly on nonempty strings
distinct from `"."` and `".."`, not starting with `"."`, containing no
`"/"` or `"\\"`, and containing no character with code point below 32 and
not the DEL character (code point 127). -/
theorem validate_ok_characterisation (name : String) :
    validate_context_name name = .ok () ↔
      (name.data ≠ [] ∧ name ≠ "." ∧ name ≠ ".." ∧
        name.data.head? ≠ some '.' ∧
        '/' ∉ name.data ∧ '\\' ∉ name.data ∧
        ∀ c ∈ name.data, ¬(c.toNat < 32 ∨ c.toNat = 127)) :=
  validate_ok_iff name

/-- Witness for C1: an ordinary alphanumeric/hyphen name is accepted. -/
theorem validate_ok_characterisation_witness :
    validate_context_name "proj-a" = .ok () :=
  (validate_ok_characterisation "proj-a").mpr (by decide)

/-- C2: for every context name accepted by the Name Validator, the
resolved per-context directory is the store root extended by exactly the
single literal segment `name` (so no traversal outside the store root is
possible), the segment is not `"."` or `".."`, and it is distinct from the
reserved active-marker filename `".current"`. -/
theorem context_dir_single_segment (root : List String) (name : String)
    (h : validate_context_name name = .ok ()) :
    get_context_dir root name = root ++ [name] ∧
      name ≠ "." ∧ name ≠ ".." ∧ name ≠ currentMarkerName := by
  obtain ⟨h0, h1, h2, h3, h4, h5, h6⟩ := (validate_ok_iff name).mp h
  refine ⟨?_, h1, h2, ?_⟩
  · simp [get_context_dir, pathJoin, isAbsolutePathStr_eq_false name h4,
      pathSegsOfName_no_slash name h0 h4]
  · intro he
    rw [he] at h3
    exact h3 (by decide)

/-- Witness for C2 at a concrete store root and name. -/
theorem context_dir_single_segment_witness :
    get_context_dir ["home", ".config", "gcpx"] "work"
        = ["home", ".config", "gcpx"] ++ ["work"] ∧
      "work" ≠ "." ∧ "work" ≠ ".." ∧ "work" ≠ currentMarkerName :=
  context_dir_single_segment ["home", ".config", "gcpx"] "work" (by decide)

/-- C7: `get_current_tracking` is a total function (it returns a `String`,
never an error): whenever the store root is accessible and the marker file
is readable it returns exactly the marker-file contents, and in every
other situation (inaccessible store root, missing/unreadable marker file)
it returns the sentinel `"none"`. -/
theorem get_current_tracking_total (fs : FsState) :
    (∀ s, fs.storeOk = true → fs.currentFile = some s →
        get_current_tracking fs = s) ∧
    ((fs.storeOk = false ∨ fs.currentFile = none) →
      get_current_tracking fs = "none") := by
  constructor
  · intro s hok hc
    simp [get_current_tracking, hok, hc]
  · intro h
    rcases h with h | h
    · simp [get_current_tracking, h]
    · cases hok : fs.storeOk
      · simp [get_current_tracking, hok, h]
      · simp [get_current_tracking, hok, h]

/-- Witness for C7: a readable marker returns its contents; a missing
marker returns the sentinel. -/
theorem get_current_tracking_total_witness :
    get_current_tracking ⟨true, [], some "alpha", none⟩ = "alpha" ∧
      get_current_tracking ⟨true, [], none, none⟩ = "none" :=
  ⟨(get_current_tracking_total ⟨true, [], some "alpha", none⟩).1 "alpha"
      rfl rfl,
    (get_current_tracking_total ⟨true, [], none, none⟩).2 (Or.inr rfl)⟩

/-- C5: switching to the context named by the current active marker is an
idempotent fast path: it succeeds, invokes no external tool, and leaves the
whole persisted state (marker, stored blobs, live credential file)
untouched. -/
theorem switch_already_active (name : String) (quiet : Bool)
    (env : GcloudEnv) (fs : FsState) (blob : List Nat)
    (hv : validate_context_name name = .ok ())
    (hs : fs.storeOk = true)
    (ha : storedAdc fs name = some blob)
    (hc : fs.currentFile = some name) :
    (switch_context name quiet env fs).result = .ok () ∧
      (switch_context name quiet env fs).fs = fs ∧
      (switch_context name quiet env fs).calls = [] := by
  have htrack : get_current_tracking fs = name := by
    simp [get_current_tracking, hs, hc]
  simp [switch_context, hv, hs, ha, htrack]

/-- Witness for C5 at a concrete saved context that is already active. -/
theorem switch_already_active_witness :
    (switch_context "a" false
        ⟨none, none, none, none, none, none, none⟩
        ⟨true, [("a", ⟨some [1, 2], some (.valid ⟨"cfg-a", some "me",
            none, none⟩)⟩)], some "a", some [9]⟩).result = .ok () ∧
      (switch_context "a" false
        ⟨none, none, none, none, none, none, none⟩
        ⟨true, [("a", ⟨some [1, 2], some (.valid ⟨"cfg-a", some "me",
            none, none⟩)⟩)], some "a", some [9]⟩).fs =
        ⟨true, [("a", ⟨some [1, 2], some (.valid ⟨"cfg-a", some "me",
            none, none⟩)⟩)], some "a", some [9]⟩ ∧
      (switch_context "a" false
        ⟨none, none, none, none, none, none, none⟩
        ⟨true, [("a", ⟨some [1, 2], some (.valid ⟨"cfg-a", some "me",
            none, none⟩)⟩)], some "a", some [9]⟩).calls = [] :=
  switch_already_active "a" false
    ⟨none, none, none, none, none, none, none⟩
    ⟨true, [("a", ⟨some [1, 2], some (.valid ⟨"cfg-a", some "me",
        none, none⟩)⟩)], some "a", some [9]⟩ [1, 2]
    (by decide) (by decide) (by decide) (by decide)

/-- C6: when gcloud-configuration activation fails during Switch (non-zero
exit of the activate command), the operation fails with an external-tool
error and the filesystem — live credential file, stored blobs, active
marker — is left exactly as it was. -/
theorem switch_activation_failure (name : String) (quiet : Bool)
    (env : GcloudEnv) (fs : FsState) (blob : List Nat)
    (md : Option ContextMetadata) (actOut : ProcOutput)
    (hv : validate_context_name name = .ok ())
    (hs : fs.storeOk = true)
    (ha : storedAdc fs name = some blob)
    (hc : get_current_tracking fs ≠ name)
    (hm : load_context_metadata fs name = .ok md)
    (hact : env.activate = some actOut)
    (hfail : actOut.exitOk = false) :
    (switch_context name quiet env fs).result =
        .error (.externalToolError
          ("gcloud error: " ++ trimStr actOut.stderr)) ∧
      (switch_context name quiet env fs).fs = fs := by
  simp [switch_context, hv, hs, ha, hc, hm, hact, hfail]

/-- Witness for C6: a concrete inactive saved context whose activation
command exits non-zero. -/
theorem switch_activation_failure_witness :
    (switch_context "b" false
        ⟨none, none, none, none, some ⟨false, "", "boom"⟩, none, none⟩
        ⟨true, [("b", ⟨some [3], some (.valid ⟨"cfg-b", none, none,
            none⟩)⟩)], some "a", some [9]⟩).result =
        .error (.externalToolError ("gcloud error: " ++ trimStr "boom")) ∧
      (switch_context "b" false
        ⟨none, none, none, none, some ⟨false, "", "boom"⟩, none, none⟩
        ⟨true, [("b", ⟨some [3], some (.valid ⟨"cfg-b", none, none,
            none⟩)⟩)], some "a", some [9]⟩).fs =
        ⟨true, [("b", ⟨some [3], some (.valid ⟨"cfg-b", none, none,
            none⟩)⟩)], some "a", some [9]⟩ :=
  switch_activation_failure "b" false
    ⟨none, none, none, none, some ⟨false, "", "boom"⟩, none, none⟩
    ⟨true, [("b", ⟨some [3], some (.valid ⟨"cfg-b", none, none,
        none⟩)⟩)], some "a", some [9]⟩ [3]
    (some ⟨"cfg-b", none, none, none⟩) ⟨false, "", "boom"⟩
    (by decide) (by decide) (by decide) (by decide) (by decide)
    (by decide) (by decide)

/-- C9: for every context name, starting store state and external
environment, running Save or Switch with `quiet = true` produces exactly
the same result value, persisted filesystem state and external-tool calls
as with `quiet = false`; the flag only changes the printed output. -/
theorem quiet_only_affects_output (name : String) (env : GcloudEnv)
    (fs : FsState) :
    ((save_context name true env fs).result
        = (save_context name false env fs).result ∧
      (save_context name true env fs).fs
        = (save_context name false env fs).fs ∧
      (save_context name true env fs).calls
        = (save_context name false env fs).calls) ∧
    ((switch_context name true env fs).result
        = (switch_context name false env fs).result ∧
      (switch_context name true env fs).fs
        = (switch_context name false env fs).fs ∧
      (switch_context name true env fs).calls
        = (switch_context name false env fs).calls) := by
  constructor
  · unfold save_context
    cases hv : validate_context_name name with
    | error e => simp
    | ok u =>
      cases u
      cases hl : fs.liveAdc with
      | none => simp
      | some blob =>
        cases hcfg : get_current_gcloud_config env with
        | error e => simp
        | ok cfg =>
          cases hacc : get_current_gcloud_account env with
          | error e => simp
          | ok acc =>
            cases hproj : get_current_gcloud_project env with
            | error e => simp
            | ok proj =>
              cases hok : fs.storeOk with
              | false => simp
              | true => simp
  · unfold switch_context
    cases hv : validate_context_name name with
    | error e => simp
    | ok u =>
      cases u
      cases hok : fs.storeOk with
      | false => simp
      | true =>
        cases hsa : storedAdc fs name with
        | none => simp
        | some blob =>
          by_cases htr : get_current_tracking fs = name
          · simp [htr]
          · cases hlm : load_context_metadata fs name with
            | error e => simp [htr]
            | ok md =>
              cases hact : env.activate with
              | none => simp [htr]
              | some actOut =>
                cases hae : actOut.exitOk with
                | false => simp [htr, hae]
                | true => simp [htr, hae]

/-- C10: when Delete is invoked with the delete-profile option, every
profile-deletion command it issues names the context name itself; in
particular a stored metadata profile name different from the context name
is never the target of the deletion. -/
theorem delete_profile_uses_context_name (name : String)
    (env : GcloudEnv) (fs : FsState) (p : String)
    (hmem : ExtCall.deleteGcloudConfig p ∈
      (delete_context name true env fs).calls) :
    p = name := by
  revert hmem
  unfold delete_context
  cases hv : validate_context_name name with
  | error e => intro hmem; simp at hmem
  | ok u =>
    cases u
    cases hce : context_exists fs name with
    | error e => intro hmem; simp at hmem
    | ok b =>
      cases b with
      | false => intro hmem; simp at hmem
      | true =>
        cases hdc : env.deleteCfg with
        | none =>
          intro hmem
          simp at hmem
          exact hmem
        | some dOut =>
          intro hmem
          by_cases he : dOut.exitOk = true
          · simp [he] at hmem
            exact hmem
          · by_cases hsub :
              substrIn "does not exist".data dOut.stderr.data = true
            · simp [he, hsub] at hmem
              exact hmem
            · simp [he, hsub] at hmem
              exact hmem

/-- Witness for C10: deleting context `"a"` (whose stored metadata names
profile `"cfg-z"`) issues a profile-deletion call for `"a"`. -/
theorem delete_profile_uses_context_name_witness :
    ExtCall.deleteGcloudConfig "a" ∈
        (delete_context "a" true
          ⟨none, none, none, none, none, none, some ⟨true, "", ""⟩⟩
          ⟨true, [("a", ⟨some [1], some (.valid ⟨"cfg-z", none, none,
              none⟩)⟩)], none, none⟩).calls ∧
      ("a" : String) = "a" :=
  ⟨by decide,
    delete_profile_uses_context_name "a"
      ⟨none, none, none, none, none, none, some ⟨true, "", ""⟩⟩
      ⟨true, [("a", ⟨some [1], some (.valid ⟨"cfg-z", none, none,
          none⟩)⟩)], none, none⟩ "a" (by decide)⟩

/-- C4 counterexample: a store whose directory for `"a"` exists but holds
no `adc.json` — Delete fails with context-not-found although the context
directory exists, refuting the claim that the failure happens exactly when
the directory is missing (the code tests the blob file, not the
directory). -/
theorem delete_dir_without_blob_counterexample :
    (delete_context "a" false
        ⟨none, none, none, none, none, none, none⟩
        ⟨true, [("a", ⟨none, none⟩)], none, none⟩).result =
      .error (.contextNotFound "a") ∧
    FsState.getCtx ⟨true, [("a", ⟨none, none⟩)], none, none⟩ "a" ≠ none := by
  constructor
  · decide
  · decide

/-- C4 (amended): for a valid name on an accessible store with distinct
directory names, Delete fails with context-not-found exactly when the
stored credential blob `adc.json` is absent; when the blob is present the
deletion proceeds: it succeeds, the context no longer exists afterwards,
the active marker file is not modified, and when the name equals the
active marker a non-fatal warning is printed. -/
theorem delete_not_found_iff_blob_absent (name : String) (env : GcloudEnv)
    (fs : FsState)
    (hv : validate_context_name name = .ok ())
    (hs : fs.storeOk = true)
    (hnd : (fs.storeEntries.map Prod.fst).Nodup) :
    ((delete_context name false env fs).result =
        .error (.contextNotFound name) ↔ storedAdc fs name = none) ∧
    (∀ blob, storedAdc fs name = some blob →
      (delete_context name false env fs).result = .ok () ∧
      storedAdc (delete_context name false env fs).fs name = none ∧
      (delete_context name false env fs).fs.currentFile = fs.currentFile ∧
      (get_current_tracking fs = name →
        ("Warning: " ++ name ++ " is the currently active context.") ∈
          (delete_context name false env fs).output)) := by
  constructor
  · cases hsa : storedAdc fs name with
    | none =>
      have hce : context_exists fs name = .ok false := by
        simp [context_exists, hs, hsa]
      simp [delete_context, hv, hce]
    | some blob =>
      have hce : context_exists fs name = .ok true := by
        simp [context_exists, hs, hsa]
      simp [delete_context, hv, hce, hsa]
  · intro blob hsa
    have hce : context_exists fs name = .ok true := by
      simp [context_exists, hs, hsa]
    have hrm : lookupCtx (removeCtxEntries fs.storeEntries name) name = none :=
      lookupCtx_removeCtxEntries _ _ hnd
    refine ⟨?_, ?_, ?_, ?_⟩
    · simp [delete_context, hv, hce]
    · simp [delete_context, hv, hce, storedAdc, FsState.getCtx, hrm]
    · simp [delete_context, hv, hce]
    · intro htr
      simp [delete_context, hv, hce, htr]

/-- Witness for C4 (amended) at a concrete saved context. -/
theorem delete_not_found_iff_blob_absent_witness :
    ((delete_context "a" false
        ⟨none, none, none, none, none, none, none⟩
        ⟨true, [("a", ⟨some [7], none⟩)], some "a", none⟩).result =
          .error (.contextNotFound "a") ↔
      storedAdc ⟨true, [("a", ⟨some [7], none⟩)], some "a", none⟩ "a"
        = none) ∧
    (∀ blob,
      storedAdc ⟨true, [("a", ⟨some [7], none⟩)], some "a", none⟩ "a"
          = some blob →
      (delete_context "a" false
          ⟨none, none, none, none, none, none, none⟩
          ⟨true, [("a", ⟨some [7], none⟩)], some "a", none⟩).result
          = .ok () ∧
      storedAdc (delete_context "a" false
          ⟨none, none, none, none, none, none, none⟩
          ⟨true, [("a", ⟨some [7], none⟩)], some "a", none⟩).fs "a"
          = none ∧
      (delete_context "a" false
          ⟨none, none, none, none, none, none, none⟩
          ⟨true, [("a", ⟨some [7], none⟩)], some "a", none⟩).fs.currentFile
          = (⟨true, [("a", ⟨some [7], none⟩)], some "a", none⟩ :
              FsState).currentFile ∧
      (get_current_tracking
            ⟨true, [("a", ⟨some [7], none⟩)], some "a", none⟩ = "a" →
        ("Warning: " ++ "a" ++ " is the currently active context.") ∈
          (delete_context "a" false
            ⟨none, none, none, none, none, none, none⟩
            ⟨true, [("a", ⟨some [7], none⟩)], some "a", none⟩).output)) :=
  delete_not_found_iff_blob_absent "a"
    ⟨none, none, none, none, none, none, none⟩
    ⟨true, [("a", ⟨some [7], none⟩)], some "a", none⟩
    (by decide) (by decide) (by decide)

/-- C3 counterexample: an environment in which only the account query
fails to spawn (config and project queries succeed, credentials exist) —
Save does not degrade and complete; it aborts with the propagated error. -/
theorem save_account_failure_counterexample :
    (save_context "a" false
        ⟨some ⟨true, "cfg", ""⟩, none, some ⟨true, "proj-1", ""⟩, none,
          none, none, none⟩
        ⟨true, [], none, some [1]⟩).result =
      .error (.externalToolError "Failed to get current gcloud account") := by
  decide

/-- C3 (amended): during Save an absent account or project VALUE (empty
or "(unset)" query output) degrades to recording the value as absent and
the save completes; but a failure of the account or the project query
command itself is fatal (the error is propagated and no state is
written), exactly like a failure of the profile-name query; only the
kubectl secondary-context query is optional-on-failure (its spawn failure
records the value as absent and the save completes). -/
theorem save_account_query_contract (name : String) (env : GcloudEnv)
    (fs : FsState) (blob : List Nat)
    (hv : validate_context_name name = .ok ())
    (hadc : fs.liveAdc = some blob)
    (hs : fs.storeOk = true) :
    (∀ o1, env.configList = some o1 → env.accountGet = none →
      (save_context name false env fs).result =
        .error (.externalToolError "Failed to get current gcloud account") ∧
      (save_context name false env fs).fs = fs) ∧
    (∀ o1 o2, env.configList = some o1 → env.accountGet = some o2 →
      env.projectGet = none →
      (save_context name false env fs).result =
        .error (.externalToolError "Failed to get current gcloud project") ∧
      (save_context name false env fs).fs = fs) ∧
    (∀ o1 o2 o3, env.configList = some o1 → env.accountGet = some o2 →
      env.projectGet = some o3 →
      (trimStr o2.stdout = "" ∨ trimStr o2.stdout = "(unset)") →
      (save_context name false env fs).result = .ok () ∧
      ∃ m, load_context_metadata (save_context name false env fs).fs name
          = .ok (some m) ∧ m.account = none) ∧
    (∀ o1 o2 o3, env.configList = some o1 → env.accountGet = some o2 →
      env.projectGet = some o3 →
      (trimStr o3.stdout = "" ∨ trimStr o3.stdout = "(unset)") →
      (save_context name false env fs).result = .ok () ∧
      ∃ m, load_context_metadata (save_context name false env fs).fs name
          = .ok (some m) ∧ m.project = none) ∧
    (∀ o1 o2 o3, env.configList = some o1 → env.accountGet = some o2 →
      env.projectGet = some o3 → env.kubectlCurrent = none →
      (save_context name false env fs).result = .ok () ∧
      ∃ m, load_context_metadata (save_context name false env fs).fs name
          = .ok (some m) ∧ m.kubectl_context = none) := by
  refine ⟨?_, ?_, ?_, ?_, ?_⟩
  · intro o1 h1 hacc
    obtain ⟨cfg, hcfg⟩ : ∃ cfg, get_current_gcloud_config env = .ok cfg :=
      ⟨if trimStr o1.stdout = "" then "default" else trimStr o1.stdout,
        by simp [get_current_gcloud_config, h1]⟩
    have ha : get_current_gcloud_account env =
        .error (.externalToolError "Failed to get current gcloud account") :=
      by simp [get_current_gcloud_account, hacc]
    constructor
    · simp [save_context, hv, hadc, hcfg, ha]
    · simp [save_context, hv, hadc, hcfg, ha]
  · intro o1 o2 h1 h2 hproj
    obtain ⟨cfg, hcfg⟩ : ∃ cfg, get_current_gcloud_config env = .ok cfg :=
      ⟨if trimStr o1.stdout = "" then "default" else trimStr o1.stdout,
        by simp [get_current_gcloud_config, h1]⟩
    obtain ⟨acct, ha⟩ : ∃ a, get_current_gcloud_account env = .ok a :=
      ⟨if trimStr o2.stdout = "" || trimStr o2.stdout = "(unset)"
          then none else some (trimStr o2.stdout),
        by simp [get_current_gcloud_account, h2]⟩
    have hp : get_current_gcloud_project env =
        .error (.externalToolError "Failed to get current gcloud project") :=
      by simp [get_current_gcloud_project, hproj]
    constructor
    · simp [save_context, hv, hadc, hcfg, ha, hp]
    · simp [save_context, hv, hadc, hcfg, ha, hp]
  · intro o1 o2 o3 h1 h2 h3 hout
    obtain ⟨cfg, hcfg⟩ : ∃ cfg, get_current_gcloud_config env = .ok cfg :=
      ⟨if trimStr o1.stdout = "" then "default" else trimStr o1.stdout,
        by simp [get_current_gcloud_config, h1]⟩
    obtain ⟨proj, hp⟩ : ∃ p, get_current_gcloud_project env = .ok p :=
      ⟨if trimStr o3.stdout = "" || trimStr o3.stdout = "(unset)"
          then none else some (trimStr o3.stdout),
        by simp [get_current_gcloud_project, h3]⟩
    have ha : get_current_gcloud_account env = .ok none := by
      rcases hout with h | h <;> simp [get_current_gcloud_account, h2, h]
    obtain ⟨hres, hload⟩ := save_success_metadata name env fs blob cfg
      none proj hv hadc hs hcfg ha hp
    exact ⟨hres, ⟨cfg, none, proj, get_current_kubectl_context env⟩,
      hload, rfl⟩
  · intro o1 o2 o3 h1 h2 h3 hout
    obtain ⟨cfg, hcfg⟩ : ∃ cfg, get_current_gcloud_config env = .ok cfg :=
      ⟨if trimStr o1.stdout = "" then "default" else trimStr o1.stdout,
        by simp [get_current_gcloud_config, h1]⟩
    obtain ⟨acct, ha⟩ : ∃ a, get_current_gcloud_account env = .ok a :=
      ⟨if trimStr o2.stdout = "" || trimStr o2.stdout = "(unset)"
          then none else some (trimStr o2.stdout),
        by simp [get_current_gcloud_account, h2]⟩
    have hp : get_current_gcloud_project env = .ok none := by
      rcases hout with h | h <;> simp [get_current_gcloud_project, h3, h]
    obtain ⟨hres, hload⟩ := save_success_metadata name env fs blob cfg
      acct none hv hadc hs hcfg ha hp
    exact ⟨hres, ⟨cfg, acct, none, get_current_kubectl_context env⟩,
      hload, rfl⟩
  · intro o1 o2 o3 h1 h2 h3 hkc
    obtain ⟨cfg, hcfg⟩ : ∃ cfg, get_current_gcloud_config env = .ok cfg :=
      ⟨if trimStr o1.stdout = "" then "default" else trimStr o1.stdout,
        by simp [get_current_gcloud_config, h1]⟩
    obtain ⟨acct, ha⟩ : ∃ a, get_current_gcloud_account env = .ok a :=
      ⟨if trimStr o2.stdout = "" || trimStr o2.stdout = "(unset)"
          then none else some (trimStr o2.stdout),
        by simp [get_current_gcloud_account, h2]⟩
    obtain ⟨proj, hp⟩ : ∃ p, get_current_gcloud_project env = .ok p :=
      ⟨if trimStr o3.stdout = "" || trimStr o3.stdout = "(unset)"
          then none else some (trimStr o3.stdout),
        by simp [get_current_gcloud_project, h3]⟩
    have hk : get_current_kubectl_context env = none := by
      simp [get_current_kubectl_context, hkc]
    obtain ⟨hres, hload⟩ := save_success_metadata name env fs blob cfg
      acct proj hv hadc hs hcfg ha hp
    rw [hk] at hload
    exact ⟨hres, ⟨cfg, acct, proj, none⟩, hload, rfl⟩

/-- Witness for C3 (amended), exercising four of its clauses at concrete
environments: the fatal project-query spawn failure, the "(unset)"
account, the empty project output, and the missing kubectl binary. -/
theorem save_account_query_contract_witness :
    ((save_context "a" false
        ⟨some ⟨true, "cfg", ""⟩, some ⟨true, "me", ""⟩, none, none,
          none, none, none⟩
        ⟨true, [], none, some [1]⟩).result =
        .error (.externalToolError "Failed to get current gcloud project") ∧
      (save_context "a" false
        ⟨some ⟨true, "cfg", ""⟩, some ⟨true, "me", ""⟩, none, none,
          none, none, none⟩
        ⟨true, [], none, some [1]⟩).fs = ⟨true, [], none, some [1]⟩) ∧
    ((save_context "a" false
        ⟨some ⟨true, "cfg", ""⟩, some ⟨true, "(unset)", ""⟩,
          some ⟨true, "", ""⟩, none, none, none, none⟩
        ⟨true, [], none, some [1]⟩).result = .ok () ∧
      ∃ m, load_context_metadata (save_context "a" false
          ⟨some ⟨true, "cfg", ""⟩, some ⟨true, "(unset)", ""⟩,
            some ⟨true, "", ""⟩, none, none, none, none⟩
          ⟨true, [], none, some [1]⟩).fs "a" = .ok (some m) ∧
        m.account = none) ∧
    ((save_context "a" false
        ⟨some ⟨true, "cfg", ""⟩, some ⟨true, "(unset)", ""⟩,
          some ⟨true, "", ""⟩, none, none, none, none⟩
        ⟨true, [], none, some [1]⟩).result = .ok () ∧
      ∃ m, load_context_metadata (save_context "a" false
          ⟨some ⟨true, "cfg", ""⟩, some ⟨true, "(unset)", ""⟩,
            some ⟨true, "", ""⟩, none, none, none, none⟩
          ⟨true, [], none, some [1]⟩).fs "a" = .ok (some m) ∧
        m.project = none) ∧
    ((save_context "a" false
        ⟨some ⟨true, "cfg", ""⟩, some ⟨true, "(unset)", ""⟩,
          some ⟨true, "", ""⟩, none, none, none, none⟩
        ⟨true, [], none, some [1]⟩).result = .ok () ∧
      ∃ m, load_context_metadata (save_context "a" false
          ⟨some ⟨true, "cfg", ""⟩, some ⟨true, "(unset)", ""⟩,
            some ⟨true, "", ""⟩, none, none, none, none⟩
          ⟨true, [], none, some [1]⟩).fs "a" = .ok (some m) ∧
        m.kubectl_context = none) :=
  ⟨(save_account_query_contract "a"
      ⟨some ⟨true, "cfg", ""⟩, some ⟨true, "me", ""⟩, none, none,
        none, none, none⟩
      ⟨true, [], none, some [1]⟩ [1]
      (by decide) (by decide) (by decide)).2.1
      ⟨true, "cfg", ""⟩ ⟨true, "me", ""⟩ rfl rfl rfl,
    (save_account_query_contract "a"
      ⟨some ⟨true, "cfg", ""⟩, some ⟨true, "(unset)", ""⟩,
        some ⟨true, "", ""⟩, none, none, none, none⟩
      ⟨true, [], none, some [1]⟩ [1]
      (by decide) (by decide) (by decide)).2.2.1
      ⟨true, "cfg", ""⟩ ⟨true, "(unset)", ""⟩ ⟨true, "", ""⟩
      rfl rfl rfl (Or.inr (by decide)),
    (save_account_query_contract "a"
      ⟨some ⟨true, "cfg", ""⟩, some ⟨true, "(unset)", ""⟩,
        some ⟨true, "", ""⟩, none, none, none, none⟩
      ⟨true, [], none, some [1]⟩ [1]
      (by decide) (by decide) (by decide)).2.2.2.1
      ⟨true, "cfg", ""⟩ ⟨true, "(unset)", ""⟩ ⟨true, "", ""⟩
      rfl rfl rfl (Or.inl (by decide)),
    (save_account_query_contract "a"
      ⟨some ⟨true, "cfg", ""⟩, some ⟨true, "(unset)", ""⟩,
        some ⟨true, "", ""⟩, none, none, none, none⟩
      ⟨true, [], none, some [1]⟩ [1]
      (by decide) (by decide) (by decide)).2.2.2.2
      ⟨true, "cfg", ""⟩ ⟨true, "(unset)", ""⟩ ⟨true, "", ""⟩
      rfl rfl rfl rfl⟩

/-- C8: after Save of several distinct valid names (credential source
present, query commands spawnable) into an initially empty store,
`list_contexts` returns exactly those names — a sorted permutation of the
saved names, hence each exactly once, in lexicographic order — and the
active marker equals the most recently saved name. -/
theorem save_sequence_listing (names : List String) (env : GcloudEnv)
    (blob : List Nat) (c0 : Option String)
    (henv : envSpawnOk env)
    (hvalid : ∀ n ∈ names, validate_context_name n = .ok ())
    (hnd : names.Nodup) :
    (∃ l, list_contexts (saveAll names env ⟨true, [], c0, some blob⟩)
        = .ok l ∧ l.Perm names ∧ l.Sorted (fun a b => a ≤ b)) ∧
    (names ≠ [] →
      (saveAll names env ⟨true, [], c0, some blob⟩).currentFile
        = names.getLast?) := by
  obtain ⟨sOk, sKeys, sCur⟩ := saveAll_shape env blob henv names
    ⟨true, [], c0, some blob⟩ rfl rfl hvalid hnd (by simp)
  have hfilter :
      (((saveAll names env ⟨true, [], c0, some blob⟩).storeEntries.map
          Prod.fst).filter (fun n => !startsWithDot n)) = names := by
    rw [sKeys]
    simp only [List.map_nil, List.nil_append]
    apply List.filter_eq_self.mpr
    intro n hn
    have h3 := ((validate_ok_iff n).mp (hvalid n hn)).2.2.2.1
    have hb : startsWithDot n = false := by
      cases hbc : startsWithDot n
      · rfl
      · exact absurd ((startsWithDot_iff n).mp hbc) h3
    simp [hb]
  constructor
  · refine ⟨List.insertionSort (fun a b => a ≤ b) names, ?_, ?_, ?_⟩
    · simp [list_contexts, sOk, hfilter]
    · exact List.perm_insertionSort _ names
    · exact List.sorted_insertionSort _ names
  · intro hne
    rw [sCur]
    cases hl : names.getLast? with
    | none => exact absurd (List.getLast?_eq_none_iff.mp hl) hne
    | some m => rfl

/-- Witness for C8: saving `"proj-b"` then `"proj-a"` from an empty store
lists both names sorted and leaves `"proj-a"` marked active. -/
theorem save_sequence_listing_witness :
    (∃ l, list_contexts (saveAll ["proj-b", "proj-a"]
        ⟨some ⟨true, "cfg", ""⟩, some ⟨true, "", ""⟩, some ⟨true, "", ""⟩,
          none, none, none, none⟩
        ⟨true, [], none, some [1]⟩) = .ok l ∧
      l.Perm ["proj-b", "proj-a"] ∧ l.Sorted (fun a b => a ≤ b)) ∧
    ((["proj-b", "proj-a"] : List String) ≠ [] →
      (saveAll ["proj-b", "proj-a"]
        ⟨some ⟨true, "cfg", ""⟩, some ⟨true, "", ""⟩, some ⟨true, "", ""⟩,
          none, none, none, none⟩
        ⟨true, [], none, some [1]⟩).currentFile
        = (["proj-b", "proj-a"] : List String).getLast?) :=
  save_sequence_listing ["proj-b", "proj-a"]
    ⟨some ⟨true, "cfg", ""⟩, some ⟨true, "", ""⟩, some ⟨true, "", ""⟩,
      none, none, none, none⟩
    [1] none (by decide) (by decide) (by decide)

end Gcpx
